import Mathlib

/-!
A verification development for arch/powerpc/lib/code-patching.c.

The branch codec (is_offset_in_branch_range, create_branch,
create_cond_branch, branch_target, translate_branch, is_conditional_branch)
is embedded as pure functions over natural numbers (instruction words,
addresses) and integers (signed 64-bit offsets).  Machine arithmetic is
explicit: a value of C type unsigned long is a Nat reduced mod 2^64 where
the code casts, and a value of C type long is an Int in [-2^63, 2^63)
obtained by two's-complement reinterpretation (wrap64 below).

The stateful patching paths (do_patch_instruction and the patch_instruction
facade) are embedded as explicit state-passing functions: the secure write
channel as a two-field channel state (scratch pte installed, temporary mm
active), the facade over an explicit memory map.
-/

/-- Two's-complement reinterpretation of an integer as a signed 64-bit value
(the C cast of an unsigned long into a long on ppc64): the unique
representative of x mod 2^64 lying in [-2^63, 2^63). -/
def wrap64 (x : Int) : Int :=
  if x % 0x10000000000000000 < 0x8000000000000000 then x % 0x10000000000000000
  else x % 0x10000000000000000 - 0x10000000000000000

/-- Low 64 bits of a signed value, as a natural number (the C cast of a long
back to an unsigned long). -/
def lowBits64 (x : Int) : Nat :=
  (x % 0x10000000000000000).toNat

/-- Modelled from the spec: the primary 6-bit opcode field of a 32-bit
instruction word.  The accessor ppc_inst_primary_opcode lives in a header
outside src/; the spec fixes its meaning ("classify ... using the 6-bit
primary opcode", families "6-bit opcode field = 18" / "= 16"), which for a
32-bit word is the value shifted right by 26. -/
def ppc_inst_primary_opcode (v : Nat) : Nat := v >>> 26

/-- Modelled from the spec: the absolute-addressing flag AA, second-lowest
bit of a branch instruction word (diagram at code-patching.c lines 391-397:
"absolute-addressing bit and link-set bit occupy the low 2 bits"). -/
def BRANCH_ABSOLUTE : Nat := 0x2

/-- Modelled from the spec: the link-register-set flag LK, lowest bit of a
branch instruction word. -/
def BRANCH_SET_LINK : Nat := 0x1

/-- is_offset_in_branch_range, code-patching.c lines 388-408:
offset >= -0x2000000 && offset <= 0x1fffffc && !(offset & 0x3).
For a two's-complement long, the low two bits tested by offset & 0x3 are
the value offset mod 4 (Int.emod, which is non-negative here). -/
def is_offset_in_branch_range (offset : Int) : Bool :=
  decide (-0x2000000 ≤ offset) && decide (offset ≤ 0x1fffffc) && decide (offset % 4 = 0)

/-- is_conditional_branch, code-patching.c lines 414-429: opcode 16, or
opcode 19 with ((value >> 1) & 0x3ff) one of 16, 528, 560. -/
def is_conditional_branch (v : Nat) : Bool :=
  if ppc_inst_primary_opcode v = 16 then true
  else if ppc_inst_primary_opcode v = 19 then
    ((v >>> 1) &&& 0x3FF == 16) || ((v >>> 1) &&& 0x3FF == 528) || ((v >>> 1) &&& 0x3FF == 560)
  else false

/-- The branch offset computation shared by create_branch (lines 439-441)
and create_cond_branch (lines 458-460): offset = target; if the
BRANCH_ABSOLUTE flag is clear, offset = offset - (unsigned long)addr.  Both
steps are 64-bit two's-complement arithmetic on a C long. -/
def branch_offset (addr target flags : Nat) : Int :=
  if flags &&& BRANCH_ABSOLUTE = 0 then wrap64 ((target : Int) - (addr : Int))
  else wrap64 (target : Int)

/-- create_branch, code-patching.c lines 432-451.  Success (return 0, the
encoded word stored through *instr) is modelled as some word; failure
(return 1) as none.  The C function also stores ppc_inst(0) through *instr
before the range check; that store is modelled by create_branch_c below. -/
def create_branch (addr target flags : Nat) : Option Nat :=
  let offset := branch_offset addr target flags
  if is_offset_in_branch_range offset then
    some (0x48000000 ||| (flags &&& 0x3) ||| (lowBits64 offset &&& 0x03FFFFFC))
  else none

/-- State-passing view of create_branch: cell is the previous contents of
the caller's *instr location, the result is (return status, new contents).
It mirrors the C statement order: *instr = ppc_inst(0) executes before the
range check, so a failing call leaves 0 (not cell) in the location. -/
def create_branch_c (cell addr target flags : Nat) : Int × Nat :=
  let cleared : Nat := 0
  let offset := branch_offset addr target flags
  if is_offset_in_branch_range offset then
    (0, 0x48000000 ||| (flags &&& 0x3) ||| (lowBits64 offset &&& 0x03FFFFFC))
  else (1, cleared)

/-- create_cond_branch, code-patching.c lines 453-470.  Failure exactly when
offset < -0x8000 || offset > 0x7FFF || offset & 0x3. -/
def create_cond_branch (addr target flags : Nat) : Option Nat :=
  let offset := branch_offset addr target flags
  if offset < -0x8000 ∨ 0x7FFF < offset ∨ offset % 4 ≠ 0 then none
  else some (0x40000000 ||| (flags &&& 0x3FF0003) ||| (lowBits64 offset &&& 0xFFFC))

/-- State-passing view of create_cond_branch: unlike create_branch_c, the C
code never touches *instr on the failure path, so cell is returned
unchanged there. -/
def create_cond_branch_c (cell addr target flags : Nat) : Int × Nat :=
  let offset := branch_offset addr target flags
  if offset < -0x8000 ∨ 0x7FFF < offset ∨ offset % 4 ≠ 0 then (1, cell)
  else (0, 0x40000000 ||| (flags &&& 0x3FF0003) ||| (lowBits64 offset &&& 0xFFFC))

/-- branch_opcode, code-patching.c lines 472-475. -/
def branch_opcode (v : Nat) : Nat := ppc_inst_primary_opcode v &&& 0x3F

/-- instr_is_branch_iform, lines 477-480. -/
def instr_is_branch_iform (v : Nat) : Bool := branch_opcode v == 18

/-- instr_is_branch_bform, lines 482-485. -/
def instr_is_branch_bform (v : Nat) : Bool := branch_opcode v == 16

/-- branch_iform_target, lines 500-514.  The C function reads the source
address from the instruction's own pointer; here it is the separate
argument addr.  imm is the 26-bit immediate field, sign-extended from bit
25, added to addr unless BRANCH_ABSOLUTE is set, and the sum is returned
as an unsigned long. -/
def branch_iform_target (v addr : Nat) : Nat :=
  let imm : Nat := v &&& 0x3FFFFFC
  let imm1 : Int := if imm &&& 0x2000000 ≠ 0 then (imm : Int) - 0x4000000 else (imm : Int)
  let imm2 : Int := if v &&& BRANCH_ABSOLUTE = 0 then imm1 + (addr : Int) else imm1
  lowBits64 imm2

/-- branch_bform_target, lines 516-530: 16-bit field (low two bits always
zero in an encoded branch), sign-extended from bit 15. -/
def branch_bform_target (v addr : Nat) : Nat :=
  let imm : Nat := v &&& 0xFFFC
  let imm1 : Int := if imm &&& 0x8000 ≠ 0 then (imm : Int) - 0x10000 else (imm : Int)
  let imm2 : Int := if v &&& BRANCH_ABSOLUTE = 0 then imm1 + (addr : Int) else imm1
  lowBits64 imm2

/-- branch_target, lines 532-540: dispatch on the primary opcode, 0 for
anything that is not a direct branch. -/
def branch_target (v addr : Nat) : Nat :=
  if instr_is_branch_iform v then branch_iform_target v addr
  else if instr_is_branch_bform v then branch_bform_target v addr
  else 0

/-- translate_branch, lines 551-565: decode the source instruction's target
at its own address, then re-encode a same-family branch at the destination
address, passing the whole source instruction word as the flags argument
(create_branch / create_cond_branch mask it down to the legal flag bits). -/
def translate_branch (src_val src_addr dest_addr : Nat) : Option Nat :=
  let target := branch_target src_val src_addr
  if instr_is_branch_iform src_val then create_branch dest_addr target src_val
  else if instr_is_branch_bform src_val then create_cond_branch dest_addr target src_val
  else none

/-- Channel state of the secure write channel: whether the scratch
page-table entry is installed and whether the temporary (patching) address
space is the active one.  Idle is both false; Mapped is both true. -/
structure PatchState where
  pteSet : Bool
  tempMMActive : Bool

/-- map_patch, code-patching.c lines 214-249, abstracted to the channel
state.  pteAllocOk models get_locked_pte succeeding; prefaultOk models
hash_prefault_mapping returning 0 (always true on radix, can be false on
hash when the SLB or hashed-page insertion fails).  On pte failure nothing
was installed; otherwise set_pte_at installs the mapping and
use_temporary_mm switches address spaces before hash_prefault_mapping's
status is returned. -/
def map_patch (pteAllocOk prefaultOk : Bool) (s : PatchState) : Int × PatchState :=
  if !pteAllocOk then (-1, s)
  else
    let s1 := PatchState.mk true s.tempMMActive
    let s2 := PatchState.mk s1.pteSet true
    if prefaultOk then (0, s2) else (1, s2)

/-- unmap_patch, lines 251-263: pte_clear, TLB flush, unuse_temporary_mm. -/
def unmap_patch (s : PatchState) : PatchState :=
  PatchState.mk false false

/-- do_patch_instruction, lines 265-299, with the scratch mapping context
initialized (patching_mm set up), on the channel state.  writeOk models
__patch_instruction's store not faulting.  Mirrors the control flow: if
map_patch returns nonzero the error is returned immediately (without
unmap_patch); otherwise the write happens through the alias and unmap_patch
runs before the write status is returned. -/
def do_patch_instruction (pteAllocOk prefaultOk writeOk : Bool) (s : PatchState) :
    Int × PatchState :=
  let r := map_patch pteAllocOk prefaultOk s
  if r.1 ≠ 0 then r
  else
    let err : Int := if writeOk then 0 else -14
    (err, unmap_patch r.2)

/-- Memory effect of one successful instruction write at an address. -/
def patch_write (mem : Nat → Nat) (addr instr : Nat) : Nat → Nat :=
  fun a => if a = addr then instr else mem a

/-- patch_instruction, code-patching.c lines 341-358, over an explicit
memory map.  The freed-init-section guard comes first: when
init_mem_is_free && init_section_contains(addr, 4) the function returns 0
without touching memory.  Otherwise lock_patching / do_patch_instruction /
unlock_patching run; the write path is abstracted to its memory effect,
with writeOk modelling a faulting store (-EFAULT = -14). -/
def patch_instruction (init_mem_is_free : Bool) (init_section_contains : Nat → Nat → Bool)
    (writeOk : Bool) (mem : Nat → Nat) (addr instr : Nat) : Int × (Nat → Nat) :=
  if init_mem_is_free && init_section_contains addr 4 then (0, mem)
  else if writeOk then (0, patch_write mem addr instr) else (-14, mem)

/-- patch_instruction_unlocked, lines 360-370: identical guard and write,
minus lock acquisition (the caller already holds the patching lock). -/
def patch_instruction_unlocked (init_mem_is_free : Bool)
    (init_section_contains : Nat → Nat → Bool) (writeOk : Bool) (mem : Nat → Nat)
    (addr instr : Nat) : Int × (Nat → Nat) :=
  if init_mem_is_free && init_section_contains addr 4 then (0, mem)
  else if writeOk then (0, patch_write mem addr instr) else (-14, mem)

/-! ## Bit-level toolkit -/

/-- Value of an AND with a contiguous mask of a bits starting at bit b. -/
theorem and_mask_segment (n a b : Nat) :
    n &&& ((2 ^ a - 1) * 2 ^ b) = n / 2 ^ b % 2 ^ a * 2 ^ b := by
  apply Nat.eq_of_testBit_eq
  intro i
  rw [show (2 ^ a - 1) * 2 ^ b = (2 ^ a - 1) <<< b by rw [Nat.shiftLeft_eq]]
  rw [show n / 2 ^ b % 2 ^ a * 2 ^ b = ((n >>> b) % 2 ^ a) <<< b by
    rw [Nat.shiftLeft_eq, Nat.shiftRight_eq_div_pow]]
  rw [Nat.testBit_and, Nat.testBit_shiftLeft, Nat.testBit_shiftLeft,
    Nat.testBit_mod_two_pow, Nat.testBit_shiftRight, Nat.testBit_two_pow_sub_one]
  by_cases hb : b ≤ i
  · by_cases hab : i - b < a
    · simp [hb, hab, Nat.add_sub_cancel' hb]
    · simp [hb, hab]
  · simp [hb]

theorem land3 (n : Nat) : n &&& 3 = n % 4 := by
  have h := and_mask_segment n 2 0
  norm_num at h
  exact h

theorem land63 (n : Nat) : n &&& 63 = n % 64 := by
  have h := and_mask_segment n 6 0
  norm_num at h
  exact h

theorem land2 (n : Nat) : n &&& 2 = n / 2 % 2 * 2 := by
  have h := and_mask_segment n 1 1
  norm_num at h
  exact h

theorem landIformMask (n : Nat) : n &&& 0x3FFFFFC = n / 4 % 0x1000000 * 4 := by
  have h := and_mask_segment n 24 2
  norm_num at h
  exact h

theorem landBformMask (n : Nat) : n &&& 0xFFFC = n / 4 % 0x4000 * 4 := by
  have h := and_mask_segment n 14 2
  norm_num at h
  exact h

theorem landIformSign (n : Nat) : n &&& 0x2000000 = n / 0x2000000 % 2 * 0x2000000 := by
  have h := and_mask_segment n 1 25
  norm_num at h
  exact h

theorem landBformSign (n : Nat) : n &&& 0x8000 = n / 0x8000 % 2 * 0x8000 := by
  have h := and_mask_segment n 1 15
  norm_num at h
  exact h

/-- Shifting an OR right distributes. -/
theorem or_shiftRight_distrib (a b k : Nat) : (a ||| b) >>> k = (a >>> k) ||| (b >>> k) := by
  apply Nat.eq_of_testBit_eq
  intro i
  simp [Nat.testBit_shiftRight, Nat.testBit_or]

theorem shiftRight_eq_zero_of_lt (x k : Nat) (h : x < 2 ^ k) : x >>> k = 0 := by
  rw [Nat.shiftRight_eq_div_pow]
  exact Nat.div_eq_of_lt h

/-- Masking twice through disjoint masks gives zero. -/
theorem and_mask_absorb (x m1 m2 : Nat) (h : m1 &&& m2 = 0) : (x &&& m1) &&& m2 = 0 := by
  rw [Nat.and_assoc, h, Nat.and_zero]

/-- Masking twice where the second mask is contained in the first. -/
theorem and_mask_narrow (x m1 m2 : Nat) (h : m1 &&& m2 = m2) : (x &&& m1) &&& m2 = x &&& m2 := by
  rw [Nat.and_assoc, h]

theorem lowBits64_toInt (x : Int) : ((lowBits64 x : Nat) : Int) = x % 0x10000000000000000 := by
  unfold lowBits64
  rw [Int.toNat_of_nonneg (Int.emod_nonneg x (by norm_num))]

theorem lowBits64_lt (x : Int) : lowBits64 x < 0x10000000000000000 := by
  unfold lowBits64
  have h := Int.emod_lt_of_pos x (show (0 : Int) < 0x10000000000000000 by norm_num)
  have h2 := Int.emod_nonneg x (show (0x10000000000000000 : Int) ≠ 0 by norm_num)
  omega

/-! ## Field round-trip lemmas -/

/-- Sign-reconstruction of the 26-bit immediate field encoded from an
in-range aligned offset recovers the offset (I-form). -/
theorem iform_field_decode (o : Int) (h1 : -0x2000000 ≤ o) (h2 : o ≤ 0x1fffffc)
    (h4 : o % 4 = 0) :
    (if (lowBits64 o &&& 0x3FFFFFC) &&& 0x2000000 ≠ 0
     then ((lowBits64 o &&& 0x3FFFFFC : Nat) : Int) - 0x4000000
     else ((lowBits64 o &&& 0x3FFFFFC : Nat) : Int)) = o := by
  have hD := lowBits64_toInt o
  rw [landIformMask (lowBits64 o), landIformSign (lowBits64 o / 4 % 0x1000000 * 4)]
  split
  · omega
  · omega

/-- Sign-reconstruction of the 16-bit immediate field encoded from an
in-range aligned offset recovers the offset (B-form). -/
theorem bform_field_decode (o : Int) (h1 : -0x8000 ≤ o) (h2 : o ≤ 0x7FFF)
    (h4 : o % 4 = 0) :
    (if (lowBits64 o &&& 0xFFFC) &&& 0x8000 ≠ 0
     then ((lowBits64 o &&& 0xFFFC : Nat) : Int) - 0x10000
     else ((lowBits64 o &&& 0xFFFC : Nat) : Int)) = o := by
  have hD := lowBits64_toInt o
  rw [landBformMask (lowBits64 o), landBformSign (lowBits64 o / 4 % 0x4000 * 4)]
  split
  · omega
  · omega

/-- Adding the source address back to a relative offset reproduces the
original target, in unsigned-long arithmetic. -/
theorem decode_rel_final (o : Int) (addr target : Nat)
    (ha : addr < 0x10000000000000000) (ht : target < 0x10000000000000000)
    (ho : o = wrap64 ((target : Int) - (addr : Int))) :
    lowBits64 (o + (addr : Int)) = target := by
  unfold wrap64 at ho
  unfold lowBits64
  split at ho <;> omega

/-- An absolute offset reproduces the original target, in unsigned-long
arithmetic. -/
theorem decode_abs_final (target : Nat) (ht : target < 0x10000000000000000) :
    lowBits64 (wrap64 (target : Int)) = target := by
  unfold wrap64 lowBits64
  split <;> omega

/-- The relative branch offset from addr to the 64-bit sum addr + o is o,
for any o in signed-64-bit range. -/
theorem branch_offset_rel (addr flags : Nat) (o : Int)
    (ha : addr < 0x10000000000000000) (hf : flags &&& 2 = 0)
    (hlo : -0x8000000000000000 ≤ o) (hhi : o < 0x8000000000000000) :
    branch_offset addr (lowBits64 ((addr : Int) + o)) flags = o := by
  unfold branch_offset BRANCH_ABSOLUTE
  rw [if_pos hf, lowBits64_toInt]
  unfold wrap64
  split <;> omega

/-! ## Encoded-instruction field extraction -/

/-- Fields of an encoded unconditional branch word. -/
theorem iform_enc_fields (flags D d enc : Nat) (hd : d = D &&& 0x3FFFFFC)
    (henc : enc = 0x48000000 ||| (flags &&& 3) ||| d) :
    enc >>> 26 = 18 ∧ enc &&& 3 = flags &&& 3 ∧ enc &&& 2 = flags &&& 2 ∧
    enc &&& 0x3FFFFFC = d ∧ enc &&& 0x2000000 = d &&& 0x2000000 := by
  have hf : flags &&& 3 ≤ 3 := Nat.and_le_right
  subst hd
  have hdle : D &&& 0x3FFFFFC ≤ 0x3FFFFFC := Nat.and_le_right
  subst henc
  refine ⟨?_, ?_, ?_, ?_, ?_⟩
  · rw [or_shiftRight_distrib, or_shiftRight_distrib,
      shiftRight_eq_zero_of_lt (flags &&& 3) 26 (by omega),
      shiftRight_eq_zero_of_lt (D &&& 0x3FFFFFC) 26 (by omega)]
    decide
  · rw [Nat.and_distrib_right, Nat.and_distrib_right,
      and_mask_narrow flags 3 3 (by decide),
      and_mask_absorb D 0x3FFFFFC 3 (by decide),
      (by decide : (0x48000000 &&& 3 : Nat) = 0)]
    simp
  · rw [Nat.and_distrib_right, Nat.and_distrib_right,
      and_mask_narrow flags 3 2 (by decide),
      and_mask_absorb D 0x3FFFFFC 2 (by decide),
      (by decide : (0x48000000 &&& 2 : Nat) = 0)]
    simp
  · rw [Nat.and_distrib_right, Nat.and_distrib_right,
      and_mask_absorb flags 3 0x3FFFFFC (by decide),
      and_mask_narrow D 0x3FFFFFC 0x3FFFFFC (by decide),
      (by decide : (0x48000000 &&& 0x3FFFFFC : Nat) = 0)]
    simp
  · rw [Nat.and_distrib_right, Nat.and_distrib_right,
      and_mask_absorb flags 3 0x2000000 (by decide),
      (by decide : (0x48000000 &&& 0x2000000 : Nat) = 0)]
    simp

/-- Fields of an encoded conditional branch word. -/
theorem bform_enc_fields (flags D d enc : Nat) (hd : d = D &&& 0xFFFC)
    (henc : enc = 0x40000000 ||| (flags &&& 0x3FF0003) ||| d) :
    enc >>> 26 = 16 ∧ enc &&& 0x3FF0003 = flags &&& 0x3FF0003 ∧
    enc &&& 2 = flags &&& 2 ∧ enc &&& 0xFFFC = d ∧ enc &&& 0x8000 = d &&& 0x8000 := by
  have hf : flags &&& 0x3FF0003 ≤ 0x3FF0003 := Nat.and_le_right
  subst hd
  have hdle : D &&& 0xFFFC ≤ 0xFFFC := Nat.and_le_right
  subst henc
  refine ⟨?_, ?_, ?_, ?_, ?_⟩
  · rw [or_shiftRight_distrib, or_shiftRight_distrib,
      shiftRight_eq_zero_of_lt (flags &&& 0x3FF0003) 26 (by omega),
      shiftRight_eq_zero_of_lt (D &&& 0xFFFC) 26 (by omega)]
    decide
  · rw [Nat.and_distrib_right, Nat.and_distrib_right,
      and_mask_narrow flags 0x3FF0003 0x3FF0003 (by decide),
      and_mask_absorb D 0xFFFC 0x3FF0003 (by decide),
      (by decide : (0x40000000 &&& 0x3FF0003 : Nat) = 0)]
    simp
  · rw [Nat.and_distrib_right, Nat.and_distrib_right,
      and_mask_narrow flags 0x3FF0003 2 (by decide),
      and_mask_absorb D 0xFFFC 2 (by decide),
      (by decide : (0x40000000 &&& 2 : Nat) = 0)]
    simp
  · rw [Nat.and_distrib_right, Nat.and_distrib_right,
      and_mask_absorb flags 0x3FF0003 0xFFFC (by decide),
      and_mask_narrow D 0xFFFC 0xFFFC (by decide),
      (by decide : (0x40000000 &&& 0xFFFC : Nat) = 0)]
    simp
  · rw [Nat.and_distrib_right, Nat.and_distrib_right,
      and_mask_absorb flags 0x3FF0003 0x8000 (by decide),
      (by decide : (0x40000000 &&& 0x8000 : Nat) = 0)]
    simp

/-! ## Encoder correctness -/

theorem create_branch_eq (addr target flags : Nat) :
    create_branch addr target flags =
      if is_offset_in_branch_range (branch_offset addr target flags) then
        some (0x48000000 ||| (flags &&& 0x3) |||
          (lowBits64 (branch_offset addr target flags) &&& 0x03FFFFFC))
      else none := rfl

theorem create_cond_branch_eq (addr target flags : Nat) :
    create_cond_branch addr target flags =
      if branch_offset addr target flags < -0x8000 ∨
         0x7FFF < branch_offset addr target flags ∨
         branch_offset addr target flags % 4 ≠ 0 then none
      else
        some (0x40000000 ||| (flags &&& 0x3FF0003) |||
          (lowBits64 (branch_offset addr target flags) &&& 0xFFFC)) := rfl

theorem is_offset_in_branch_range_iff (o : Int) :
    is_offset_in_branch_range o = true ↔ (-0x2000000 ≤ o ∧ o ≤ 0x1fffffc ∧ o % 4 = 0) := by
  unfold is_offset_in_branch_range
  simp only [Bool.and_eq_true, decide_eq_true_eq]
  tauto

theorem create_branch_none_iff (addr target flags : Nat) :
    create_branch addr target flags = none ↔
      is_offset_in_branch_range (branch_offset addr target flags) = false := by
  rw [create_branch_eq]
  split
  case isTrue h => exact iff_of_false (by simp) (by simp [h])
  case isFalse h => exact iff_of_true rfl (by simpa using h)

theorem create_cond_branch_none_iff (addr target flags : Nat) :
    create_cond_branch addr target flags = none ↔
      (branch_offset addr target flags < -0x8000 ∨
       0x7FFF < branch_offset addr target flags ∨
       branch_offset addr target flags % 4 ≠ 0) := by
  rw [create_cond_branch_eq]
  split
  case isTrue h => exact iff_of_true rfl h
  case isFalse h => exact iff_of_false (by simp) h

/-- On success, create_branch produces an opcode-18 word carrying exactly
the masked flag bits, whose decoded target at the same source address is
the requested target. -/
theorem create_branch_correct (addr target flags i : Nat)
    (ha : addr < 0x10000000000000000) (ht : target < 0x10000000000000000)
    (h : create_branch addr target flags = some i) :
    i >>> 26 = 18 ∧ i &&& 3 = flags &&& 3 ∧ i &&& 2 = flags &&& 2 ∧
    i = 0x48000000 ||| (flags &&& 0x3) |||
        (lowBits64 (branch_offset addr target flags) &&& 0x03FFFFFC) ∧
    branch_target i addr = target := by
  rw [create_branch_eq] at h
  split at h
  case isFalse => exact absurd h (by simp)
  case isTrue hr =>
    obtain ⟨h1, h2, h4⟩ := (is_offset_in_branch_range_iff (branch_offset addr target flags)).mp hr
    injection h with hi
    obtain ⟨hshift, hand3, hand2, handm, -⟩ :=
      iform_enc_fields flags (lowBits64 (branch_offset addr target flags))
        (lowBits64 (branch_offset addr target flags) &&& 0x3FFFFFC)
        (0x48000000 ||| (flags &&& 0x3) |||
          (lowBits64 (branch_offset addr target flags) &&& 0x03FFFFFC)) rfl rfl
    subst hi
    refine ⟨hshift, hand3, hand2, rfl, ?_⟩
    have hiform : instr_is_branch_iform
        (0x48000000 ||| (flags &&& 0x3) |||
          (lowBits64 (branch_offset addr target flags) &&& 0x03FFFFFC)) = true := by
      unfold instr_is_branch_iform branch_opcode ppc_inst_primary_opcode
      rw [hshift]
      decide
    unfold branch_target
    rw [if_pos hiform]
    simp only [branch_iform_target, BRANCH_ABSOLUTE]
    rw [handm]
    simp only [hand2]
    rw [iform_field_decode (branch_offset addr target flags) h1 h2 h4]
    by_cases hflag : flags &&& 2 = 0
    · rw [if_pos hflag]
      exact decode_rel_final _ addr target ha ht
        (by unfold branch_offset BRANCH_ABSOLUTE; rw [if_pos hflag])
    · rw [if_neg hflag]
      have ho : branch_offset addr target flags = wrap64 (target : Int) := by
        unfold branch_offset BRANCH_ABSOLUTE
        rw [if_neg hflag]
      rw [ho]
      exact decode_abs_final target ht

/-- On success, create_cond_branch produces an opcode-16 word carrying
exactly the masked flag/condition bits, whose decoded target at the same
source address is the requested target. -/
theorem create_cond_branch_correct (addr target flags i : Nat)
    (ha : addr < 0x10000000000000000) (ht : target < 0x10000000000000000)
    (h : create_cond_branch addr target flags = some i) :
    i >>> 26 = 16 ∧ i &&& 0x3FF0003 = flags &&& 0x3FF0003 ∧ i &&& 2 = flags &&& 2 ∧
    i = 0x40000000 ||| (flags &&& 0x3FF0003) |||
        (lowBits64 (branch_offset addr target flags) &&& 0xFFFC) ∧
    branch_target i addr = target := by
  rw [create_cond_branch_eq] at h
  split at h
  case isTrue => exact absurd h (by simp)
  case isFalse hr =>
    have h1 : -0x8000 ≤ branch_offset addr target flags := by omega
    have h2 : branch_offset addr target flags ≤ 0x7FFF := by omega
    have h4 : branch_offset addr target flags % 4 = 0 := by
      rcases not_or.mp hr with ⟨-, hrest⟩
      rcases not_or.mp hrest with ⟨-, hmod⟩
      omega
    injection h with hi
    obtain ⟨hshift, handc, hand2, handm, -⟩ :=
      bform_enc_fields flags (lowBits64 (branch_offset addr target flags))
        (lowBits64 (branch_offset addr target flags) &&& 0xFFFC)
        (0x40000000 ||| (flags &&& 0x3FF0003) |||
          (lowBits64 (branch_offset addr target flags) &&& 0xFFFC)) rfl rfl
    subst hi
    refine ⟨hshift, handc, hand2, rfl, ?_⟩
    have hbop : branch_opcode
        (0x40000000 ||| (flags &&& 0x3FF0003) |||
          (lowBits64 (branch_offset addr target flags) &&& 0xFFFC)) = 16 := by
      unfold branch_opcode ppc_inst_primary_opcode
      rw [hshift]
      decide
    have hniform : instr_is_branch_iform
        (0x40000000 ||| (flags &&& 0x3FF0003) |||
          (lowBits64 (branch_offset addr target flags) &&& 0xFFFC)) = false := by
      unfold instr_is_branch_iform
      rw [hbop]
      decide
    have hbform : instr_is_branch_bform
        (0x40000000 ||| (flags &&& 0x3FF0003) |||
          (lowBits64 (branch_offset addr target flags) &&& 0xFFFC)) = true := by
      unfold instr_is_branch_bform
      rw [hbop]
      decide
    unfold branch_target
    rw [hniform, hbform]
    simp only [Bool.false_eq_true, if_false, if_true]
    simp only [branch_bform_target, BRANCH_ABSOLUTE]
    rw [handm]
    simp only [hand2]
    rw [bform_field_decode (branch_offset addr target flags) h1 h2 h4]
    by_cases hflag : flags &&& 2 = 0
    · rw [if_pos hflag]
      exact decode_rel_final _ addr target ha ht
        (by unfold branch_offset BRANCH_ABSOLUTE; rw [if_pos hflag])
    · rw [if_neg hflag]
      have ho : branch_offset addr target flags = wrap64 (target : Int) := by
        unfold branch_offset BRANCH_ABSOLUTE
        rw [if_neg hflag]
      rw [ho]
      exact decode_abs_final target ht

/-! ## Claim theorems -/

/-- C3: is_offset_in_branch_range offset is true iff
-0x2000000 <= offset <= 0x1fffffc and offset is a multiple of 4; the
boundary offsets 0x1fffffc and -0x2000000 are accepted, 0x2000000 and
-0x2000004 are rejected. -/
theorem offset_range_exact :
    (∀ o : Int, is_offset_in_branch_range o = true ↔
        (-0x2000000 ≤ o ∧ o ≤ 0x1fffffc ∧ o % 4 = 0)) ∧
    is_offset_in_branch_range 0x1fffffc = true ∧
    is_offset_in_branch_range (-0x2000000) = true ∧
    is_offset_in_branch_range 0x2000000 = false ∧
    is_offset_in_branch_range (-0x2000004) = false :=
  ⟨is_offset_in_branch_range_iff, by decide, by decide, by decide, by decide⟩

/-- C3 witness: the characterization applied at the concrete offset 8. -/
theorem offset_range_exact_witness :
    -0x2000000 ≤ (8 : Int) ∧ (8 : Int) ≤ 0x1fffffc ∧ (8 : Int) % 4 = 0 :=
  (offset_range_exact.1 8).mp (by decide)

/-- C4 counterexample: a failing create_branch call does modify the
caller's output location — the C code stores ppc_inst(0) through *instr
before the range check, so previous contents 0x12345678 are replaced by 0
even though the call fails (returns 1) for the out-of-range target
0x2000000 from source address 0. -/
theorem create_branch_failure_writes_zero :
    (create_branch_c 0x12345678 0 0x2000000 0).1 = 1 ∧
    (create_branch_c 0x12345678 0 0x2000000 0).2 = 0 ∧
    (create_branch_c 0x12345678 0 0x2000000 0).2 ≠ 0x12345678 := by decide

/-- C4 amended: on an unrepresentable or misaligned offset both encoders
return failure status 1 and produce no truncated or wrapped encoding;
create_cond_branch leaves the caller's output location unmodified, while
create_branch leaves it holding 0 (it unconditionally clears the location
before the range check), not any encoding of the requested branch. -/
theorem encoders_fail_without_encoding (cell addr target flags : Nat) :
    (is_offset_in_branch_range (branch_offset addr target flags) = false →
      create_branch_c cell addr target flags = (1, 0)) ∧
    ((branch_offset addr target flags < -0x8000 ∨
      0x7FFF < branch_offset addr target flags ∨
      branch_offset addr target flags % 4 ≠ 0) →
      create_cond_branch_c cell addr target flags = (1, cell)) := by
  constructor
  · intro h
    show (if is_offset_in_branch_range (branch_offset addr target flags) then _ else _) = _
    rw [h]
    simp
  · intro h
    show (if branch_offset addr target flags < -0x8000 ∨
            0x7FFF < branch_offset addr target flags ∨
            branch_offset addr target flags % 4 ≠ 0 then (1, cell) else _) = _
    rw [if_pos h]

/-- C4 witness: both failure behaviours at the concrete out-of-range input
(source 0, target 0x2000000, previous contents 7). -/
theorem encoders_fail_without_encoding_witness :
    create_branch_c 7 0 0x2000000 0 = (1, 0) ∧
    create_cond_branch_c 7 0 0x2000000 0 = (1, 7) :=
  ⟨(encoders_fail_without_encoding 7 0 0x2000000 0).1 (by decide),
   (encoders_fail_without_encoding 7 0 0x2000000 0).2 (by decide)⟩

/-- C7 (code divergence): with the scratch context initialized, a patch
operation whose hash prefault step fails (pteAllocOk, ¬prefaultOk: on the
hash MMU hash_prefault_mapping can return nonzero after set_pte_at and
use_temporary_mm already ran) returns its error with the scratch pte still
installed and the temporary mm still active — do_patch_instruction returns
map_patch's error without calling unmap_patch, so the teardown invariant
claimed for every return is violated on this path. -/
theorem scratch_teardown_violated :
    do_patch_instruction true false true (PatchState.mk false false) =
      (1, PatchState.mk true true) ∧
    (do_patch_instruction true false true (PatchState.mk false false)).2.pteSet = true ∧
    (do_patch_instruction true false true (PatchState.mk false false)).2.tempMMActive = true ∧
    (∀ pteAllocOk writeOk : Bool,
      (do_patch_instruction pteAllocOk true writeOk (PatchState.mk false false)).2.pteSet = false ∧
      (do_patch_instruction pteAllocOk true writeOk
          (PatchState.mk false false)).2.tempMMActive = false) := by
  refine ⟨rfl, rfl, rfl, ?_⟩
  intro pteAllocOk writeOk
  cases pteAllocOk <;> cases writeOk <;> exact ⟨rfl, rfl⟩

/-- C8: patching an address inside a freed init section is a no-op
returning success, for both patch_instruction and
patch_instruction_unlocked: status 0 and the memory map is returned
untouched. -/
theorem patch_freed_init_noop (init_free : Bool) (contains : Nat → Nat → Bool)
    (writeOk : Bool) (mem : Nat → Nat) (addr instr : Nat)
    (h1 : init_free = true) (h2 : contains addr 4 = true) :
    patch_instruction init_free contains writeOk mem addr instr = (0, mem) ∧
    patch_instruction_unlocked init_free contains writeOk mem addr instr = (0, mem) := by
  unfold patch_instruction patch_instruction_unlocked
  rw [h1, h2]
  simp

/-- C8 witness: the guard applied at a concrete freed-init address. -/
theorem patch_freed_init_noop_witness :
    patch_instruction true (fun _ _ => true) true (fun _ => 0) 8 99 = (0, fun _ => 0) ∧
    patch_instruction_unlocked true (fun _ _ => true) true (fun _ => 0) 8 99 =
      (0, fun _ => 0) :=
  patch_freed_init_noop true (fun _ _ => true) true (fun _ => 0) 8 99 rfl rfl

/-- C9: is_conditional_branch is true exactly for primary opcode 16, or
primary opcode 19 with middle ten bits ((value >> 1) & 0x3ff) equal to 16,
528, or 560, and false for every other instruction. -/
theorem is_conditional_branch_spec (v : Nat) (hv : v < 0x100000000) :
    is_conditional_branch v = true ↔
      (v >>> 26 = 16 ∨ (v >>> 26 = 19 ∧
        ((v >>> 1) &&& 0x3FF = 16 ∨ (v >>> 1) &&& 0x3FF = 528 ∨
         (v >>> 1) &&& 0x3FF = 560))) := by
  unfold is_conditional_branch ppc_inst_primary_opcode
  by_cases h16 : v >>> 26 = 16
  · rw [if_pos h16]
    simp [h16]
  · rw [if_neg h16]
    by_cases h19 : v >>> 26 = 19
    · rw [if_pos h19]
      simp only [Bool.or_eq_true, beq_iff_eq]
      tauto
    · rw [if_neg h19]
      simp [h16, h19]

/-- C9 witness: a bcctr-form word (opcode 19, subfield 528) classifies as
conditional. -/
theorem is_conditional_branch_spec_witness :
    is_conditional_branch 0x4C000420 = true :=
  (is_conditional_branch_spec 0x4C000420 (by decide)).mpr
    (Or.inr ⟨by decide, Or.inr (Or.inl (by decide))⟩)

/-- C10: branch_target returns 0 for every instruction whose primary opcode
is neither 18 nor 16; the collision with a real branch decoding to target 0
(the absolute self-contained branch word 0x48000002, an opcode-18 branch to
absolute address 0) is exhibited alongside. -/
theorem branch_target_non_branch (v a : Nat) (hv : v < 0x100000000)
    (h18 : v >>> 26 ≠ 18) (h16 : v >>> 26 ≠ 16) :
    branch_target v a = 0 ∧ branch_target 0x48000002 a = 0 := by
  have hlt : v >>> 26 < 64 := by
    rw [Nat.shiftRight_eq_div_pow]
    omega
  have hbop : branch_opcode v = v >>> 26 := by
    unfold branch_opcode ppc_inst_primary_opcode
    rw [land63]
    exact Nat.mod_eq_of_lt hlt
  constructor
  · unfold branch_target instr_is_branch_iform instr_is_branch_bform
    rw [hbop]
    simp [h18, h16]
  · have hi : instr_is_branch_iform 0x48000002 = true := by decide
    unfold branch_target
    rw [hi]
    simp only [if_true]
    simp only [branch_iform_target, BRANCH_ABSOLUTE]
    rw [if_neg (by decide : ¬((0x48000002 : Nat) &&& 2 = 0)),
      if_neg (by decide : ¬(((0x48000002 : Nat) &&& 0x3FFFFFC) &&& 0x2000000 ≠ 0))]
    decide

/-- C10 witness: applied at the non-branch word 0x60000000 (ori 0,0,0). -/
theorem branch_target_non_branch_witness :
    branch_target 0x60000000 77 = 0 ∧ branch_target 0x48000002 77 = 0 :=
  branch_target_non_branch 0x60000000 77 (by decide) (by decide) (by decide)

/-- C5: create_cond_branch fails exactly when the computed offset is below
-0x8000, above 0x7fff, or misaligned; on success it produces an opcode-16
word whose flag/condition bits are flags masked by 0x3FF0003 and whose
displacement field is taken only from the offset.  Boundary offsets 0x7ffc
and -0x8000 are accepted, 0x8000 and -0x8004 are rejected (targets from
source 0, relative flags). -/
theorem create_cond_branch_spec (addr target flags : Nat)
    (ha : addr < 0x10000000000000000) (ht : target < 0x10000000000000000) :
    ((create_cond_branch addr target flags = none ↔
        (branch_offset addr target flags < -0x8000 ∨
         0x7FFF < branch_offset addr target flags ∨
         branch_offset addr target flags % 4 ≠ 0)) ∧
     (∀ i, create_cond_branch addr target flags = some i →
        i >>> 26 = 16 ∧ i &&& 0x3FF0003 = flags &&& 0x3FF0003 ∧
        i = 0x40000000 ||| (flags &&& 0x3FF0003) |||
            (lowBits64 (branch_offset addr target flags) &&& 0xFFFC))) ∧
    (create_cond_branch 0 0x7FFC 0 ≠ none ∧
     create_cond_branch 0 (0x10000000000000000 - 0x8000) 0 ≠ none ∧
     create_cond_branch 0 0x8000 0 = none ∧
     create_cond_branch 0 (0x10000000000000000 - 0x8004) 0 = none) := by
  refine ⟨⟨create_cond_branch_none_iff addr target flags, ?_⟩, by decide, by decide,
    by decide, by decide⟩
  intro i h
  obtain ⟨hshift, handc, -, hstruct, -⟩ := create_cond_branch_correct addr target flags i ha ht h
  exact ⟨hshift, handc, hstruct⟩

/-- C5 witness: the success-shape conclusion for an absolute conditional
branch to 0x100 encoded with all-ones flags (word 0x43FF0103, as in the
kernel self-test). -/
theorem create_cond_branch_spec_witness :
    (0x43FF0103 : Nat) >>> 26 = 16 ∧
    (0x43FF0103 : Nat) &&& 0x3FF0003 = 0xFFFFFFFF &&& 0x3FF0003 ∧
    (0x43FF0103 : Nat) = 0x40000000 ||| (0xFFFFFFFF &&& 0x3FF0003) |||
        (lowBits64 (branch_offset 0x1000 0x100 0xFFFFFFFF) &&& 0xFFFC) :=
  ((create_cond_branch_spec 0x1000 0x100 0xFFFFFFFF (by norm_num) (by norm_num)).1.2
    0x43FF0103 (by decide))

/-- C6: for every source address and target, encoding with all-ones flags
produces the same result as encoding with exactly the legal flag bits set:
0x3 for create_branch, 0x3FF0003 for create_cond_branch. -/
theorem flags_masked_equally (addr target : Nat) :
    create_branch addr target 0xFFFFFFFF = create_branch addr target 3 ∧
    create_cond_branch addr target 0xFFFFFFFF = create_cond_branch addr target 0x3FF0003 := by
  have hbo1 : branch_offset addr target 0xFFFFFFFF = branch_offset addr target 3 := by
    unfold branch_offset BRANCH_ABSOLUTE
    rw [if_neg (by decide : ¬((0xFFFFFFFF : Nat) &&& 2 = 0)),
      if_neg (by decide : ¬((3 : Nat) &&& 2 = 0))]
  have hbo2 : branch_offset addr target 0xFFFFFFFF = branch_offset addr target 0x3FF0003 := by
    unfold branch_offset BRANCH_ABSOLUTE
    rw [if_neg (by decide : ¬((0xFFFFFFFF : Nat) &&& 2 = 0)),
      if_neg (by decide : ¬((0x3FF0003 : Nat) &&& 2 = 0))]
  constructor
  · rw [create_branch_eq, create_branch_eq, hbo1,
      (by decide : (0xFFFFFFFF &&& 0x3 : Nat) = 3),
      (by decide : ((3 : Nat) &&& 0x3) = 3)]
  · rw [create_cond_branch_eq, create_cond_branch_eq, hbo2,
      (by decide : (0xFFFFFFFF &&& 0x3FF0003 : Nat) = 0x3FF0003),
      (by decide : ((0x3FF0003 : Nat) &&& 0x3FF0003) = 0x3FF0003)]

theorem branch_target_lt (v a : Nat) : branch_target v a < 0x10000000000000000 := by
  unfold branch_target
  split
  · exact lowBits64_lt _
  · split
    · exact lowBits64_lt _
    · norm_num

/-- C2: for every source address, flags value, and offset o that is a
multiple of 4 inside the family's representable range, encoding a branch
from addr to the 64-bit sum addr + o and decoding the result at addr gives
back addr + o; whenever the flags are relative (AA clear) the encoder is
moreover guaranteed to succeed, and every successful encoding (any flags)
decodes to addr + o.  Both families are covered. -/
theorem encode_decode_roundtrip (addr flags : Nat) (o : Int)
    (ha : addr < 0x10000000000000000) :
    (o % 4 = 0 → -0x2000000 ≤ o → o ≤ 0x1fffffc →
      ((flags &&& 2 = 0 →
          ∃ i, create_branch addr (lowBits64 ((addr : Int) + o)) flags = some i) ∧
       (∀ i, create_branch addr (lowBits64 ((addr : Int) + o)) flags = some i →
          branch_target i addr = lowBits64 ((addr : Int) + o)))) ∧
    (o % 4 = 0 → -0x8000 ≤ o → o ≤ 0x7FFF →
      ((flags &&& 2 = 0 →
          ∃ i, create_cond_branch addr (lowBits64 ((addr : Int) + o)) flags = some i) ∧
       (∀ i, create_cond_branch addr (lowBits64 ((addr : Int) + o)) flags = some i →
          branch_target i addr = lowBits64 ((addr : Int) + o)))) := by
  constructor
  · intro h4 h1 h2
    constructor
    · intro hflag
      have hbo := branch_offset_rel addr flags o ha hflag (by omega) (by omega)
      refine ⟨0x48000000 ||| (flags &&& 0x3) ||| (lowBits64 o &&& 0x03FFFFFC), ?_⟩
      rw [create_branch_eq, hbo,
        if_pos ((is_offset_in_branch_range_iff o).mpr ⟨h1, h2, h4⟩)]
    · intro i h
      exact (create_branch_correct addr (lowBits64 ((addr : Int) + o)) flags i ha
        (lowBits64_lt _) h).2.2.2.2
  · intro h4 h1 h2
    constructor
    · intro hflag
      have hbo := branch_offset_rel addr flags o ha hflag (by omega) (by omega)
      refine ⟨0x40000000 ||| (flags &&& 0x3FF0003) ||| (lowBits64 o &&& 0xFFFC), ?_⟩
      rw [create_cond_branch_eq, hbo, if_neg (by push_neg; exact ⟨by omega, by omega, h4⟩)]
    · intro i h
      exact (create_cond_branch_correct addr (lowBits64 ((addr : Int) + o)) flags i ha
        (lowBits64_lt _) h).2.2.2.2

/-- C2 witness: encoding source 4096, offset 8 with relative flags gives
word 0x48000008, which decodes at 4096 back to 4104. -/
theorem encode_decode_roundtrip_witness :
    branch_target 0x48000008 4096 = lowBits64 ((4096 : Int) + 8) :=
  ((encode_decode_roundtrip 4096 0 8 (by norm_num)).1 (by decide) (by decide)
    (by decide)).2 0x48000008 (by decide)

/-- C1: relocating a direct branch (primary opcode 18 or 16) from address a
to address b via translate_branch yields, on success, a same-family branch
whose decoded target at b equals the original's decoded target at a, with
the original flag bits (low two bits for opcode 18, the 0x3FF0003 field for
opcode 16) preserved; and it fails (returns none, the C return 1) exactly
when the new offset falls outside the family's representable range. -/
theorem translate_branch_spec (v a b : Nat)
    (hv : v < 0x100000000) (ha : a < 0x10000000000000000)
    (hb : b < 0x10000000000000000) (hop : v >>> 26 = 18 ∨ v >>> 26 = 16) :
    (∀ i, translate_branch v a b = some i →
        i >>> 26 = v >>> 26 ∧
        branch_target i b = branch_target v a ∧
        (v >>> 26 = 18 → i &&& 3 = v &&& 3) ∧
        (v >>> 26 = 16 → i &&& 0x3FF0003 = v &&& 0x3FF0003)) ∧
    (translate_branch v a b = none ↔
      ((v >>> 26 = 18 ∧
          is_offset_in_branch_range (branch_offset b (branch_target v a) v) = false) ∨
       (v >>> 26 = 16 ∧
          (branch_offset b (branch_target v a) v < -0x8000 ∨
           0x7FFF < branch_offset b (branch_target v a) v ∨
           branch_offset b (branch_target v a) v % 4 ≠ 0)))) := by
  have hlt : v >>> 26 < 64 := by
    rw [Nat.shiftRight_eq_div_pow]
    omega
  have hbop : branch_opcode v = v >>> 26 := by
    unfold branch_opcode ppc_inst_primary_opcode
    rw [land63]
    exact Nat.mod_eq_of_lt hlt
  rcases hop with h18 | h16
  · have hifo : instr_is_branch_iform v = true := by
      unfold instr_is_branch_iform
      rw [hbop, h18]
      decide
    have htr : translate_branch v a b = create_branch b (branch_target v a) v := by
      unfold translate_branch
      rw [hifo]
      simp only [if_true]
    constructor
    · intro i h
      rw [htr] at h
      obtain ⟨hshift, hand3, -, -, hdec⟩ :=
        create_branch_correct b (branch_target v a) v i hb (branch_target_lt v a) h
      exact ⟨by rw [hshift, h18], hdec, fun _ => hand3,
        fun hc => absurd (h18.symm.trans hc) (by decide)⟩
    · rw [htr, create_branch_none_iff]
      constructor
      · intro hf
        exact Or.inl ⟨h18, hf⟩
      · rintro (⟨-, hf⟩ | ⟨hc, -⟩)
        · exact hf
        · exact absurd (h18.symm.trans hc) (by decide)
  · have hnifo : instr_is_branch_iform v = false := by
      unfold instr_is_branch_iform
      rw [hbop, h16]
      decide
    have hbfo : instr_is_branch_bform v = true := by
      unfold instr_is_branch_bform
      rw [hbop, h16]
      decide
    have htr : translate_branch v a b = create_cond_branch b (branch_target v a) v := by
      unfold translate_branch
      rw [hnifo, hbfo]
      simp only [Bool.false_eq_true, if_false, if_true]
    constructor
    · intro i h
      rw [htr] at h
      obtain ⟨hshift, handc, -, -, hdec⟩ :=
        create_cond_branch_correct b (branch_target v a) v i hb (branch_target_lt v a) h
      exact ⟨by rw [hshift, h16], hdec,
        fun hc => absurd (h16.symm.trans hc) (by decide), fun _ => handc⟩
    · rw [htr, create_cond_branch_none_iff]
      constructor
      · intro hf
        exact Or.inr ⟨h16, hf⟩
      · rintro (⟨hc, -⟩ | ⟨-, hf⟩)
        · exact absurd (h16.symm.trans hc) (by decide)
        · exact hf

/-- C1 witness: the spec's end-to-end relocation test — an unconditional
self-branch at 0x1000 (word 0x48000000) relocated to 0x1004 becomes
0x4BFFFFFC, and its decoded target at 0x1004 equals the original's decoded
target at 0x1000 (namely 0x1000). -/
theorem translate_branch_spec_witness :
    branch_target 0x4BFFFFFC 0x1004 = branch_target 0x48000000 0x1000 :=
  (((translate_branch_spec 0x48000000 0x1000 0x1004 (by norm_num) (by norm_num)
      (by norm_num) (Or.inl (by decide))).1 0x4BFFFFFC (by decide)).2.1)
